import Mathlib

/-!
Verification of the job queue / lease-claim subsystem of the mixsmvrt
backend, shallowly embedded from the Python sources:

* `src/models.py`   — job record and status enumeration
* `src/jobs.py`     — create / claim / update operations on the job store
* `src/routes/processing.py` — route layer (claim, patch, status, auth)
* `src/progress.py` — progress reporter (Supabase-backed job rows)
* `src/dsp_worker/worker.py` — worker retry loop, capacity check, patching

The database is modelled as a list of job records; timestamps are natural
numbers; the in-flight row locks of `FOR UPDATE SKIP LOCKED` are modelled
by an explicit set (list) of locked job ids handed to the claim operation.
-/

namespace MixSmvrt

/-- Job status enumeration, from `JobStatus` in `src/models.py`. -/
inductive JobStatus where
  | pending
  | processing
  | completed
  | failed
deriving DecidableEq, Repr

/-- A row of the `processing_jobs_v2` table, from `ProcessingJob` in
`src/models.py`.  `created_at`/`updated_at` are abstract instants. -/
structure ProcessingJob where
  id : String
  user_id : String
  genre : Option String
  flow_type : String
  preset_name : Option String
  input_s3_key : String
  output_s3_key : Option String
  status : JobStatus
  error_message : Option String
  created_at : Nat
  updated_at : Nat
deriving DecidableEq, Repr

/-- The fresh row built by `create_job` in `src/jobs.py`: status `pending`,
no output key, no error message, both timestamps set at insert. -/
def newJob (id user_id : String) (genre : Option String) (flow_type : String)
    (preset_name : Option String) (input_s3_key : String) (now : Nat) :
    ProcessingJob :=
  { id := id
    user_id := user_id
    genre := genre
    flow_type := flow_type
    preset_name := preset_name
    input_s3_key := input_s3_key
    output_s3_key := none
    status := JobStatus.pending
    error_message := none
    created_at := now
    updated_at := now }

/-- `create_job` from `src/jobs.py`: insert a fresh `pending` row and
return it together with the new table state. -/
def create_job (db : List ProcessingJob) (id user_id : String)
    (genre : Option String) (flow_type : String) (preset_name : Option String)
    (input_s3_key : String) (now : Nat) :
    ProcessingJob × List ProcessingJob :=
  let job := newJob id user_id genre flow_type preset_name input_s3_key now
  (job, db ++ [job])

/-- `get_job` from `src/jobs.py`: primary-key lookup. -/
def get_job (db : List ProcessingJob) (job_id : String) : Option ProcessingJob :=
  db.find? (fun j => j.id == job_id)

/-- The field mutation performed on the selected row inside the claim
transaction of `claim_pending_job` (`src/jobs.py` lines 60-65):
`status = processing`, `error_message = None`, `updated_at = now`. -/
def claimApply (j : ProcessingJob) (now : Nat) : ProcessingJob :=
  { j with status := JobStatus.processing, error_message := none, updated_at := now }

/-- The rows eligible for claiming: `status = pending` and not locked by a
concurrent in-flight claim (`FOR UPDATE SKIP LOCKED`). -/
def claimCandidates (db : List ProcessingJob) (locked : List String) :
    List ProcessingJob :=
  db.filter (fun j => j.status == JobStatus.pending && !(locked.contains j.id))

/-- `ORDER BY created_at ASC LIMIT 1`: the first row, by ascending
`created_at`, of a list of rows (first in list order on ties). -/
def selectOldest : List ProcessingJob → Option ProcessingJob
  | [] => none
  | j :: rest =>
    match selectOldest rest with
    | none => some j
    | some k => if k.created_at < j.created_at then some k else some j

/-- `claim_pending_job` from `src/jobs.py`: inside one transaction, select
the oldest unlocked `pending` row; if none, return `None` and leave the
table unchanged; otherwise set it to `processing`, clear its error, refresh
`updated_at`, and return the updated row.  `locked` holds the ids of rows
currently locked by other in-flight claims (skipped by `SKIP LOCKED`). -/
def claim_pending_job (db : List ProcessingJob) (locked : List String)
    (now : Nat) : Option ProcessingJob × List ProcessingJob :=
  match selectOldest (claimCandidates db locked) with
  | none => (none, db)
  | some j =>
    let j2 := claimApply j now
    (some j2, db.map (fun r => if r.id == j.id then j2 else r))

/-- The field mutation `update_job` (`src/jobs.py` lines 81-91) performs on
the located row: set `status`; overwrite `output_s3_key` only when one is
supplied; overwrite `error_message` when supplied, otherwise clear it when
the new status is `completed`; always refresh `updated_at`. -/
def applyUpdate (job : ProcessingJob) (status : JobStatus)
    (output_s3_key error_message : Option String) (now : Nat) : ProcessingJob :=
  let j1 := { job with status := status }
  let j2 :=
    match output_s3_key with
    | some k => { j1 with output_s3_key := some k }
    | none => j1
  let j3 :=
    match error_message with
    | some e => { j2 with error_message := some e }
    | none =>
      if status == JobStatus.completed then { j2 with error_message := none } else j2
  { j3 with updated_at := now }

/-- `update_job` from `src/jobs.py`: locate the row by id; absent rows give
`None` with the table unchanged; otherwise apply the field mutation and
return the updated row together with the new table state. -/
def update_job (db : List ProcessingJob) (job_id : String) (status : JobStatus)
    (output_s3_key error_message : Option String) (now : Nat) :
    Option ProcessingJob × List ProcessingJob :=
  match db.find? (fun j => j.id == job_id) with
  | none => (none, db)
  | some job =>
    let j2 := applyUpdate job status output_s3_key error_message now
    (some j2, db.map (fun r => if r.id == job_id then j2 else r))

/-!
## Route layer, from `src/routes/processing.py`

HTTP outcomes are modelled with `Except Nat`: `Except.error n` is an
`HTTPException` with status code `n`.
-/

/-- `_require_worker_auth`: accept when no token is configured (Python
`if not token` also accepts an empty-string token), otherwise require the
`Authorization` header to equal `Bearer <token>` exactly; `true` means the
request is accepted, `false` means HTTP 401. -/
def require_worker_auth (token authorization : Option String) : Bool :=
  match token with
  | none => true
  | some t => if t = "" then true else authorization == some ("Bearer " ++ t)

/-- The `POST /jobs/claim` route (`claim_job`): 404 when no pending job is
available, otherwise the claimed job record. -/
def claim_job (db : List ProcessingJob) (locked : List String) (now : Nat) :
    Except Nat ProcessingJob × List ProcessingJob :=
  match claim_pending_job db locked now with
  | (none, db2) => (Except.error 404, db2)
  | (some j, db2) => (Except.ok j, db2)

/-- The `PATCH /jobs/{job_id}` route (`patch_job`): 404 when `update_job`
finds no row, otherwise the updated record. -/
def patch_job (db : List ProcessingJob) (job_id : String) (status : JobStatus)
    (output_s3_key error_message : Option String) (now : Nat) :
    Except Nat ProcessingJob × List ProcessingJob :=
  match update_job db job_id status output_s3_key error_message now with
  | (none, db2) => (Except.error 404, db2)
  | (some j, db2) => (Except.ok j, db2)

/-- A job counts as active for queue-position purposes when its status is
`pending` or `processing` (`active_statuses` in `get_job_status`). -/
def isActive (j : ProcessingJob) : Bool :=
  j.status == JobStatus.pending || j.status == JobStatus.processing

/-- The `ORDER BY created_at ASC` ordering on rows. -/
def createdLE (a b : ProcessingJob) : Prop := a.created_at ≤ b.created_at

instance : DecidableRel createdLE := fun a b => Nat.decLe a.created_at b.created_at

instance : IsTotal ProcessingJob createdLE := ⟨fun a b => Nat.le_total a.created_at b.created_at⟩

instance : IsTrans ProcessingJob createdLE := ⟨fun _ _ _ => Nat.le_trans⟩

/-- Rows sorted by ascending `created_at`. -/
def sortByCreated (l : List ProcessingJob) : List ProcessingJob :=
  List.insertionSort createdLE l

/-- The id list produced by the queue query of `get_job_status`: ids of
rows sharing the flow type whose status is active, ordered by ascending
`created_at`. -/
def queueIds (db : List ProcessingJob) (ft : String) : List String :=
  (sortByCreated (db.filter (fun j => j.flow_type == ft && isActive j))).map
    (fun j => j.id)

/-- The JSON body returned by `GET /job/{job_id}`. -/
structure StatusResponse where
  status : JobStatus
  output_download_url : Option String
  error_message : Option String
  queue_feature_type : String
  queue_position : Option Nat
  queue_size : Option Nat
deriving DecidableEq, Repr

/-- The download URL field of the status response: present only for a
`completed` job with a truthy (non-empty) output key. -/
def downloadUrl (presign : String → Nat → String) (job : ProcessingJob) :
    Option String :=
  match job.output_s3_key with
  | some k =>
    if job.status == JobStatus.completed && k ≠ "" then some (presign k 900)
    else none
  | none => none

/-- The `GET /job/{job_id}` route (`get_job_status`): 404 when the job is
absent, 403 on a user mismatch; a download URL only for a completed job
with a (truthy) output key; queue position and size computed from the
active same-flow rows, or both left absent when the queue query faults
(`queryOk = false` models the caught `Exception`).  `presign` stands for
`generate_presigned_download_url` from `src/s3.py` (an opaque
object-storage collaborator). -/
def get_job_status (presign : String → Nat → String) (db : List ProcessingJob)
    (queryOk : Bool) (job_id user_id : String) : Except Nat StatusResponse :=
  match get_job db job_id with
  | none => Except.error 404
  | some job =>
    if job.user_id ≠ user_id then Except.error 403
    else
      let url : Option String := downloadUrl presign job
      let pq : Option Nat × Option Nat :=
        if queryOk then
          let ids := queueIds db job.flow_type
          if ids.isEmpty then (none, none)
          else
            ((if ids.contains job.id then some (ids.indexOf job.id + 1) else none),
             some ids.length)
        else (none, none)
      Except.ok
        { status := job.status
          output_download_url := url
          error_message := job.error_message
          queue_feature_type := job.flow_type
          queue_position := pq.1
          queue_size := pq.2 }

/-!
## Progress reporter, from `src/progress.py`

These helpers patch a Supabase-backed job row via
`update_processing_job` (`src/supabase_client.py`), which merges a partial
payload into the row; each helper is modelled as the merge it performs.
Timestamps (`_now_iso()`) are abstract strings passed in as `now`.
-/

/-- Python `round` on the exact value: nearest integer, ties to even. -/
def pyRound (q : ℚ) : ℤ :=
  if q - (⌊q⌋ : ℚ) < 1 / 2 then ⌊q⌋
  else if 1 / 2 < q - (⌊q⌋ : ℚ) then ⌊q⌋ + 1
  else if ⌊q⌋ % 2 = 0 then ⌊q⌋ else ⌊q⌋ + 1

/-- `_compute_progress`: 0 for a non-positive total, otherwise clamp the
completed count into `[0, total]` and round `(completed / total) * 100`. -/
def compute_progress (completed_steps total_steps : ℤ) : ℤ :=
  if total_steps ≤ 0 then 0
  else
    pyRound (((max 0 (min completed_steps total_steps) : ℤ) : ℚ) /
      (total_steps : ℚ) * 100)

/-- The fields of a Supabase `processing_jobs` row touched by
`src/progress.py`. -/
structure SupabaseJobRow where
  status : String
  current_stage : String
  progress : ℤ
  error_message : Option String
  updated_at : String
deriving DecidableEq, Repr

/-- `update_progress`: after DSP step `step_index` of `total_steps`
(1-based) completes, merge `status = processing`, the stage label, the
computed percentage, and a fresh `updated_at` into the row. -/
def update_progress (row : SupabaseJobRow) (step_name : String)
    (step_index total_steps : ℤ) (now : String) : SupabaseJobRow :=
  { row with
    status := "processing"
    current_stage := step_name
    progress := compute_progress step_index total_steps
    updated_at := now }

/-- `mark_job_complete`: merge `status = completed`, `progress = 100`, a
final stage label (Python `final_stage or "Completed"`, so an absent or
empty label becomes `"Completed"`), and a fresh `updated_at`. -/
def mark_job_complete (row : SupabaseJobRow) (final_stage : Option String)
    (now : String) : SupabaseJobRow :=
  { row with
    status := "completed"
    progress := 100
    current_stage :=
      match final_stage with
      | some s => if s = "" then "Completed" else s
      | none => "Completed"
    updated_at := now }

/-- `mark_job_failed`: merge `status = failed`, a synthesized stage label,
the error message, and a fresh `updated_at`; the numeric `progress` field
is deliberately not part of the payload, so it is left untouched. -/
def mark_job_failed (row : SupabaseJobRow) (step_name error_message : String)
    (now : String) : SupabaseJobRow :=
  { row with
    status := "failed"
    current_stage := "Error during " ++ step_name
    error_message := some error_message
    updated_at := now }

/-!
## Worker loop, from `src/dsp_worker/worker.py`

One claimed job is driven by the retry loop of `run_worker_loop`
(lines 152-169).  An attempt (`_process_claimed_job`) either succeeds or
raises; the raised message is a `String`.  The loop keeps `last_error`,
sleeps `min(5.0 * attempt, 15.0)` inside the `except` handler, and after
the loop issues one `failed` patch through `_patch_job` when
`last_error` is set.
-/

/-- The backoff slept in the `except` handler: `min(5.0 * attempt, 15.0)`
seconds.  For every natural `attempt` the float arithmetic is exact and
integer-valued, so the duration is modelled as a natural number. -/
def backoff (attempt : Nat) : Nat := min (5 * attempt) 15

/-- The JSON payload `_patch_job` sends to `PATCH /jobs/{job_id}`:
`output_s3_key` only when truthy, `error_message` only when truthy and
then truncated to its first 3900 characters. -/
structure WorkerPatch where
  status : String
  output_s3_key : Option String
  error_message : Option String
deriving DecidableEq, Repr

/-- Python slicing `e[:3900]`: the first 3900 characters of `e` (all of
`e` when it is shorter). -/
def truncate3900 (e : String) : String := String.mk (e.data.take 3900)

/-- Payload construction of `_patch_job` (`src/dsp_worker/worker.py`
lines 54-66). -/
def patchPayload (status : String) (output_s3_key error_message : Option String) :
    WorkerPatch :=
  { status := status
    output_s3_key :=
      match output_s3_key with
      | some k => if k = "" then none else some k
      | none => none
    error_message :=
      match error_message with
      | some e => if e = "" then none else some (truncate3900 e)
      | none => none }

/-- The message of the `RuntimeError` raised by `_ensure_tmp_capacity`
when free space in `/tmp` is below the configured minimum. -/
def capacityError (free minBytes : Nat) : String :=
  "Insufficient /tmp free space (" ++ toString free ++ " bytes). " ++
    "Required minimum is " ++ toString minBytes ++ " bytes."

/-- `_ensure_tmp_capacity` composed with the rest of one attempt of
`_process_claimed_job`: the capacity check runs first and raises the
capacity message when free scratch space is below the minimum; only then
is the render pipeline (`render`, covering download, DSP, upload and the
`completed` patch) invoked. -/
def processClaimedJob (freeBytes minBytes : Nat)
    (render : Nat → Except String Unit) (attempt : Nat) : Except String Unit :=
  if freeBytes < minBytes then Except.error (capacityError freeBytes minBytes)
  else render attempt

/-- The `for attempt in range(1, MAX_RETRIES + 1)` loop: returns the final
`last_error`, the backoff sleeps performed (in order), and the number of
attempts executed.  A successful attempt clears `last_error` and breaks;
a failing attempt records its error and sleeps — also when it is the last
attempt, because the sleep sits inside the `except` handler. -/
def runAttempts (step : Nat → Except String Unit) (attempt fuel : Nat)
    (lastErr : Option String) : Option String × List Nat × Nat :=
  match fuel with
  | 0 => (lastErr, [], 0)
  | Nat.succ f =>
    match step attempt with
    | Except.ok _ => (none, [], 1)
    | Except.error e =>
      let rest := runAttempts step (attempt + 1) f (some e)
      (rest.1, backoff attempt :: rest.2.1, rest.2.2 + 1)

/-- Per-claimed-job portion of `run_worker_loop`: run the attempt loop
starting at attempt 1 with `last_error = None`; if `last_error` survives
the loop, issue exactly one terminal `failed` patch carrying
`str(last_error)`. Result: (attempts executed, sleeps, final patch). -/
def handleClaimedJob (step : Nat → Except String Unit) (maxRetries : Nat) :
    Nat × List Nat × Option WorkerPatch :=
  let r := runAttempts step 1 maxRetries none
  (r.2.2, r.2.1,
    match r.1 with
    | some e => some (patchPayload "failed" none (some e))
    | none => none)

/-!
## Per-job reachability

`Reachable` closes a single job record under the three core mutations:
creation (`create_job`), claiming (`claim_pending_job`, which only ever
mutates a `pending` row), and `update_job` with arbitrary arguments (the
route layer restricts the status to processing/completed/failed but places
no constraint tying `output_s3_key` to the status).  `WReachable` is the
restriction to the update discipline the worker actually follows: an
output key is supplied exactly when the new status is `completed`, and a
job already `completed` is never updated again. -/
inductive Reachable : ProcessingJob → Prop where
  | create (id user_id : String) (genre : Option String) (flow_type : String)
      (preset_name : Option String) (input_s3_key : String) (now : Nat) :
      Reachable (newJob id user_id genre flow_type preset_name input_s3_key now)
  | claim (j : ProcessingJob) (now : Nat) (h : Reachable j)
      (hp : j.status = JobStatus.pending) : Reachable (claimApply j now)
  | update (j : ProcessingJob) (s : JobStatus) (k e : Option String) (now : Nat)
      (h : Reachable j) : Reachable (applyUpdate j s k e now)

/-- Reachability under the worker's update discipline (see `Reachable`). -/
inductive WReachable : ProcessingJob → Prop where
  | create (id user_id : String) (genre : Option String) (flow_type : String)
      (preset_name : Option String) (input_s3_key : String) (now : Nat) :
      WReachable (newJob id user_id genre flow_type preset_name input_s3_key now)
  | claim (j : ProcessingJob) (now : Nat) (h : WReachable j)
      (hp : j.status = JobStatus.pending) : WReachable (claimApply j now)
  | updateCompleted (j : ProcessingJob) (k : String) (e : Option String)
      (now : Nat) (h : WReachable j) :
      WReachable (applyUpdate j JobStatus.completed (some k) e now)
  | updateOther (j : ProcessingJob) (s : JobStatus) (e : Option String)
      (now : Nat) (h : WReachable j) (hj : j.status ≠ JobStatus.completed)
      (hs : s ≠ JobStatus.completed) : WReachable (applyUpdate j s none e now)

/-!
## Concrete fixtures used by witnesses and counterexamples
-/

/-- Fixture: pending job `A`, created at instant 5. -/
def jobA : ProcessingJob := newJob "A" "U" none "mixing_only" none "a.wav" 5

/-- Fixture: pending job `B`, created at instant 3 (locked in the claim
witness scenario). -/
def jobB : ProcessingJob := newJob "B" "U" none "mixing_only" none "b.wav" 3

/-- Fixture: pending job `C`, created at instant 4. -/
def jobC : ProcessingJob := newJob "C" "U" none "mixing_only" none "c.wav" 4

/-- Fixture: job `D`, created at instant 1 but already `processing`. -/
def jobD : ProcessingJob :=
  { newJob "D" "U" none "mixing_only" none "d.wav" 1 with
    status := JobStatus.processing }

/-- Fixture table for the claim witness: `B` is locked by a concurrent
claimant and `D` is not pending, so the oldest eligible row is `C`. -/
def dbClaim : List ProcessingJob := [jobA, jobB, jobC, jobD]

/-- A job state reachable through the unrestricted core mutations whose
output key is set while its status is `failed`. -/
def c4Bad : ProcessingJob :=
  applyUpdate (newJob "J4" "U" none "mixing_only" none "in.wav" 0)
    JobStatus.failed (some "out.wav") none 1

/-- A job state reachable under the worker discipline: created, claimed,
then completed with an output key. -/
def c4Good : ProcessingJob :=
  applyUpdate (claimApply (newJob "J4w" "U" none "mixing_only" none "in.wav" 0) 1)
    JobStatus.completed (some "out.wav") none 2

/-- Fixture Supabase row at zero progress. -/
def rowFix : SupabaseJobRow :=
  { status := "pending", current_stage := "", progress := 0,
    error_message := none, updated_at := "t0" }

/-- Fixture presigner standing in for `generate_presigned_download_url`. -/
def presignFix (key : String) (expires : Nat) : String :=
  "https://signed/" ++ key ++ "/" ++ toString expires

/-- Fixture: first of three pending jobs of one flow type. -/
def jobQA : ProcessingJob := newJob "QA" "U" none "mixing_only" none "qa.wav" 1

/-- Fixture: second of three pending jobs of one flow type. -/
def jobQB : ProcessingJob := newJob "QB" "U" none "mixing_only" none "qb.wav" 2

/-- Fixture: third of three pending jobs of one flow type. -/
def jobQC : ProcessingJob := newJob "QC" "U" none "mixing_only" none "qc.wav" 3

/-- Fixture: three pending jobs of one flow type created in order
`A`, `B`, `C` (the queue-position scenario of the spec). -/
def dbQueue : List ProcessingJob := [jobQA, jobQB, jobQC]

/-- Fixture table for the terminal-update witness. -/
def dbPatch : List ProcessingJob := [newJob "J9" "U" none "mixing_only" none "in.wav" 0]

end MixSmvrt

deriving instance DecidableEq for Except

namespace MixSmvrt

/-!
## Theorems
-/

/-- `selectOldest` returns `none` exactly on the empty list. -/
lemma selectOldest_eq_none {l : List ProcessingJob} :
    selectOldest l = none ↔ l = [] := by
  cases l with
  | nil => simp [selectOldest]
  | cons a rest =>
    cases hr : selectOldest rest with
    | none => simp [selectOldest, hr]
    | some k =>
      simp only [selectOldest, hr]
      split <;> simp

/-- The row returned by `selectOldest` belongs to the list. -/
lemma selectOldest_mem {l : List ProcessingJob} {j : ProcessingJob}
    (h : selectOldest l = some j) : j ∈ l := by
  induction l with
  | nil => simp [selectOldest] at h
  | cons a rest ih =>
    cases hr : selectOldest rest with
    | none =>
      simp only [selectOldest, hr, Option.some.injEq] at h
      subst h
      exact List.mem_cons_self _ _
    | some m =>
      simp only [selectOldest, hr] at h
      by_cases hc : m.created_at < a.created_at
      · rw [if_pos hc, Option.some.injEq] at h
        subst h
        exact List.mem_cons_of_mem _ (ih hr)
      · rw [if_neg hc, Option.some.injEq] at h
        subst h
        exact List.mem_cons_self _ _

/-- The row returned by `selectOldest` has the least `created_at`. -/
lemma selectOldest_min_aux {l : List ProcessingJob} :
    ∀ {j : ProcessingJob}, selectOldest l = some j →
      ∀ k ∈ l, j.created_at ≤ k.created_at := by
  induction l with
  | nil => intro j h; simp [selectOldest] at h
  | cons a rest ih =>
    intro j h k hk
    cases hr : selectOldest rest with
    | none =>
      simp only [selectOldest, hr, Option.some.injEq] at h
      subst h
      have hrest : rest = [] := selectOldest_eq_none.mp hr
      subst hrest
      simp at hk
      subst hk
      exact le_refl _
    | some m =>
      simp only [selectOldest, hr] at h
      rcases List.mem_cons.mp hk with hk | hk
      · rw [hk]
        by_cases hc : m.created_at < a.created_at
        · rw [if_pos hc, Option.some.injEq] at h
          subst h
          exact le_of_lt hc
        · rw [if_neg hc, Option.some.injEq] at h
          subst h
          exact le_refl _
      · have hm := ih hr
        by_cases hc : m.created_at < a.created_at
        · rw [if_pos hc, Option.some.injEq] at h
          subst h
          exact hm k hk
        · rw [if_neg hc, Option.some.injEq] at h
          subst h
          exact le_trans (le_of_not_lt hc) (hm k hk)

/-- Restatement of `selectOldest_min_aux` with explicit hypotheses. -/
lemma selectOldest_min {l : List ProcessingJob} {j : ProcessingJob}
    (h : selectOldest l = some j) :
    ∀ k ∈ l, j.created_at ≤ k.created_at :=
  selectOldest_min_aux h

/-- C1: when an unlocked `pending` row exists, `claim_pending_job` picks
the one with the smallest `created_at` and, in the same step as the
selection, sets its status to `processing`, clears its `error_message`,
refreshes `updated_at` and returns the full record, rewriting exactly that
row in the table; when no eligible row exists it returns `none`, leaves the
table unchanged, and the route answers 404 rather than an error. -/
theorem claim_pending_job_spec (db : List ProcessingJob) (locked : List String)
    (now : Nat) :
    (claimCandidates db locked = [] →
        claim_pending_job db locked now = (none, db) ∧
        (claim_job db locked now).1 = Except.error 404 ∧
        (claim_job db locked now).2 = db) ∧
    (∀ j, selectOldest (claimCandidates db locked) = some j →
        j ∈ db ∧ j.status = JobStatus.pending ∧ locked.contains j.id = false ∧
        (∀ k ∈ db, k.status = JobStatus.pending → locked.contains k.id = false →
            j.created_at ≤ k.created_at) ∧
        claim_pending_job db locked now =
          (some (claimApply j now),
            db.map (fun r => if r.id == j.id then claimApply j now else r)) ∧
        (claimApply j now).status = JobStatus.processing ∧
        (claimApply j now).error_message = none ∧
        (claimApply j now).updated_at = now ∧
        (claimApply j now).id = j.id ∧
        (claimApply j now).user_id = j.user_id ∧
        (claimApply j now).flow_type = j.flow_type ∧
        (claimApply j now).input_s3_key = j.input_s3_key ∧
        (claimApply j now).output_s3_key = j.output_s3_key ∧
        (claimApply j now).created_at = j.created_at ∧
        (claim_job db locked now).1 = Except.ok (claimApply j now)) := by
  constructor
  · intro hc
    simp [claim_pending_job, claim_job, hc, selectOldest]
  · intro j hsel
    have hmem := selectOldest_mem hsel
    have hmem2 := List.mem_filter.mp hmem
    have hpred := hmem2.2
    simp only [Bool.and_eq_true, beq_iff_eq, Bool.not_eq_true'] at hpred
    refine ⟨hmem2.1, hpred.1, hpred.2, ?_, ?_, rfl, rfl, rfl, rfl, rfl, rfl, rfl, rfl, rfl, ?_⟩
    · intro k hk hks hkl
      refine selectOldest_min hsel k (List.mem_filter.mpr ⟨hk, ?_⟩)
      simp only [Bool.and_eq_true, beq_iff_eq, Bool.not_eq_true']
      exact ⟨hks, hkl⟩
    · simp [claim_pending_job, hsel]
    · simp [claim_job, claim_pending_job, hsel]

/-- Witness for `claim_pending_job_spec`: in `dbClaim` (pending `A`@5,
locked pending `B`@3, pending `C`@4, processing `D`@1) the claim picks
`C`. -/
theorem claim_pending_job_spec_witness :
    jobC ∈ dbClaim ∧ jobC.status = JobStatus.pending ∧
    (["B"] : List String).contains jobC.id = false ∧
    (∀ k ∈ dbClaim, k.status = JobStatus.pending →
        (["B"] : List String).contains k.id = false →
        jobC.created_at ≤ k.created_at) ∧
    claim_pending_job dbClaim ["B"] 9 =
      (some (claimApply jobC 9),
        dbClaim.map (fun r => if r.id == jobC.id then claimApply jobC 9 else r)) ∧
    (claimApply jobC 9).status = JobStatus.processing ∧
    (claimApply jobC 9).error_message = none ∧
    (claimApply jobC 9).updated_at = 9 ∧
    (claimApply jobC 9).id = jobC.id ∧
    (claimApply jobC 9).user_id = jobC.user_id ∧
    (claimApply jobC 9).flow_type = jobC.flow_type ∧
    (claimApply jobC 9).input_s3_key = jobC.input_s3_key ∧
    (claimApply jobC 9).output_s3_key = jobC.output_s3_key ∧
    (claimApply jobC 9).created_at = jobC.created_at ∧
    (claim_job dbClaim ["B"] 9).1 = Except.ok (claimApply jobC 9) :=
  (claim_pending_job_spec dbClaim ["B"] 9).2 jobC (by decide)

/-- `applyUpdate` never changes the row id. -/
lemma applyUpdate_id (job : ProcessingJob) (s : JobStatus)
    (k e : Option String) (now : Nat) : (applyUpdate job s k e now).id = job.id := by
  cases k <;> cases e <;> by_cases hs : s = JobStatus.completed <;>
    simp [applyUpdate, hs]

/-- Re-applying the same `update_job` field mutation is absorbed by the
later application: only the final `updated_at` survives. -/
lemma applyUpdate_applyUpdate (job : ProcessingJob) (s : JobStatus)
    (k e : Option String) (t1 t2 : Nat) :
    applyUpdate (applyUpdate job s k e t1) s k e t2 = applyUpdate job s k e t2 := by
  cases k <;> cases e <;> by_cases hs : s = JobStatus.completed <;>
    simp [applyUpdate, hs]

/-- `find?` by id over a table whose matching rows were rewritten to a row
carrying that id finds the rewritten row exactly when the original search
succeeded. -/
lemma find?_map_replace (db : List ProcessingJob) (i : String)
    (j2 : ProcessingJob) (h : j2.id = i) :
    (db.map (fun r => if r.id == i then j2 else r)).find? (fun r => r.id == i) =
      (db.find? (fun r => r.id == i)).map (fun _ => j2) := by
  induction db with
  | nil => rfl
  | cons r rest ih =>
    by_cases hr : r.id = i
    · simp [List.find?_cons, hr, h, -List.find?_map]
    · simpa [List.find?_cons, hr, -List.find?_map] using ih

/-- C5: issuing the identical terminal update twice (at instants `t1` then
`t2`) leaves the job store — returned record included — in exactly the
state produced by issuing it once at `t2`; in particular every observable
field other than `updated_at` matches a single issuance. -/
theorem update_job_idempotent (db : List ProcessingJob) (job_id : String)
    (status : JobStatus) (output_s3_key error_message : Option String)
    (t1 t2 : Nat) :
    update_job (update_job db job_id status output_s3_key error_message t1).2
        job_id status output_s3_key error_message t2 =
      update_job db job_id status output_s3_key error_message t2 := by
  cases hfind : db.find? (fun j => j.id == job_id) with
  | none => simp [update_job, hfind]
  | some job =>
    have hid4 : (applyUpdate job status output_s3_key error_message t1).id = job_id := by
      rw [applyUpdate_id]
      have hba := List.find?_some hfind
      simpa using hba
    have hfind2 :
        ((db.map (fun r =>
            if r.id == job_id then applyUpdate job status output_s3_key error_message t1
            else r)).find? (fun r => r.id == job_id)) =
          some (applyUpdate job status output_s3_key error_message t1) := by
      rw [find?_map_replace db job_id _ hid4, hfind]
      rfl
    simp only [update_job, hfind, hfind2]
    refine Prod.ext ?_ ?_
    · simp [applyUpdate_applyUpdate]
    · simp only [List.map_map]
      refine List.map_congr_left ?_
      intro r _
      by_cases hr : r.id = job_id
      · simp [Function.comp, hr, hid4, applyUpdate_applyUpdate]
      · simp [Function.comp, hr]

/-- Witness for `update_job_idempotent`: completing the single job of
`dbPatch` twice equals completing it once. -/
theorem update_job_idempotent_witness :
    update_job (update_job dbPatch "J9" JobStatus.completed (some "out.wav")
        none 1).2 "J9" JobStatus.completed (some "out.wav") none 2 =
      update_job dbPatch "J9" JobStatus.completed (some "out.wav") none 2 :=
  update_job_idempotent dbPatch "J9" JobStatus.completed (some "out.wav") none 1 2

/-- C4 (counterexample): the unrestricted mutations reach a state whose
output key is set while the status is `failed` — `update_job` accepts an
`output_s3_key` together with `status = failed` — so "output set iff
completed" fails over all `Reachable` states. -/
theorem output_iff_completed_counterexample :
    Reachable c4Bad ∧ c4Bad.output_s3_key = some "out.wav" ∧
    c4Bad.status = JobStatus.failed ∧
    ¬(c4Bad.output_s3_key ≠ none ↔ c4Bad.status = JobStatus.completed) :=
  ⟨Reachable.update _ _ _ _ _
      (Reachable.create "J4" "U" none "mixing_only" none "in.wav" 0),
    by decide, by decide, by decide⟩

/-- C4 (amended): over states reachable when `update_job` is driven the
way the worker drives it — an output key supplied exactly when the new
status is `completed`, and no further update once a job is `completed` —
the output key is set if and only if the status is `completed`. -/
theorem output_iff_completed_of_WReachable (j : ProcessingJob)
    (h : WReachable j) :
    j.output_s3_key ≠ none ↔ j.status = JobStatus.completed := by
  induction h with
  | create id user_id genre flow_type preset_name input_s3_key now =>
    simp [newJob]
  | claim j now h hp ih =>
    have hout : j.output_s3_key = none := by
      by_contra hne
      rw [ih.mp hne] at hp
      cases hp
    simp [claimApply, hout]
  | updateCompleted j k e now h ih =>
    cases e <;> simp [applyUpdate]
  | updateOther j s e now h hj hs ih =>
    have hout : j.output_s3_key = none := by
      by_contra hne
      exact hj (ih.mp hne)
    cases e <;> by_cases hc : s = JobStatus.completed <;>
      simp [applyUpdate, hout, hc, hs] <;> exact hs hc

/-- Witness for `output_iff_completed_of_WReachable`: a job created,
claimed, then completed with an output key satisfies the invariant. -/
theorem output_iff_completed_of_WReachable_witness :
    WReachable c4Good ∧
    (c4Good.output_s3_key ≠ none ↔ c4Good.status = JobStatus.completed) := by
  have hreach : WReachable c4Good :=
    WReachable.updateCompleted _ "out.wav" none 2
      (WReachable.claim _ 1
        (WReachable.create "J4w" "U" none "mixing_only" none "in.wav" 0) rfl)
  exact ⟨hreach, output_iff_completed_of_WReachable c4Good hreach⟩

/-- C9: a terminal update against a missing job id yields `None` from
`update_job` — surfaced as HTTP 404 by the route — and leaves the table
untouched; against an existing job it sets the status, always refreshes
`updated_at`, and a `completed` status clears `error_message` unless an
error message is explicitly supplied, in which case that message is
stored. -/
theorem update_job_not_found_and_fields (db : List ProcessingJob)
    (job_id : String) (s : JobStatus) (k e : Option String) (now : Nat) :
    (db.find? (fun j => j.id == job_id) = none →
        update_job db job_id s k e now = (none, db) ∧
        patch_job db job_id s k e now = (Except.error 404, db)) ∧
    (∀ job, db.find? (fun j => j.id == job_id) = some job →
        update_job db job_id s k e now =
          (some (applyUpdate job s k e now),
            db.map (fun r => if r.id == job_id then applyUpdate job s k e now else r)) ∧
        (patch_job db job_id s k e now).1 = Except.ok (applyUpdate job s k e now) ∧
        (applyUpdate job s k e now).status = s ∧
        (applyUpdate job s k e now).updated_at = now ∧
        (e = none → s = JobStatus.completed →
          (applyUpdate job s k e now).error_message = none) ∧
        (∀ em, e = some em → (applyUpdate job s k e now).error_message = some em)) := by
  constructor
  · intro hf
    constructor
    · simp [update_job, hf]
    · simp [patch_job, update_job, hf]
  · intro job hf
    refine ⟨by simp [update_job, hf], by simp [patch_job, update_job, hf], ?_, ?_, ?_, ?_⟩
    · cases k <;> cases e <;> by_cases hs : s = JobStatus.completed <;>
        simp [applyUpdate, hs]
    · cases k <;> cases e <;> by_cases hs : s = JobStatus.completed <;>
        simp [applyUpdate, hs]
    · intro he hs
      subst he
      cases k <;> simp [applyUpdate, hs]
    · intro em he
      subst he
      cases k <;> by_cases hs : s = JobStatus.completed <;> simp [applyUpdate, hs]

/-- Witness for `update_job_not_found_and_fields`: a missing id gets 404
without state change, and completing the single job of `dbPatch` stamps
the expected fields. -/
theorem update_job_not_found_and_fields_witness :
    (update_job dbPatch "missing" JobStatus.failed none none 7 = (none, dbPatch) ∧
      patch_job dbPatch "missing" JobStatus.failed none none 7 =
        (Except.error 404, dbPatch)) ∧
    (update_job dbPatch "J9" JobStatus.completed (some "out.wav") none 7 =
        (some (applyUpdate (newJob "J9" "U" none "mixing_only" none "in.wav" 0)
            JobStatus.completed (some "out.wav") none 7),
          dbPatch.map (fun r =>
            if r.id == "J9" then
              applyUpdate (newJob "J9" "U" none "mixing_only" none "in.wav" 0)
                JobStatus.completed (some "out.wav") none 7
            else r)) ∧
      (patch_job dbPatch "J9" JobStatus.completed (some "out.wav") none 7).1 =
        Except.ok (applyUpdate (newJob "J9" "U" none "mixing_only" none "in.wav" 0)
          JobStatus.completed (some "out.wav") none 7) ∧
      (applyUpdate (newJob "J9" "U" none "mixing_only" none "in.wav" 0)
          JobStatus.completed (some "out.wav") none 7).status = JobStatus.completed ∧
      (applyUpdate (newJob "J9" "U" none "mixing_only" none "in.wav" 0)
          JobStatus.completed (some "out.wav") none 7).updated_at = 7 ∧
      ((none : Option String) = none → JobStatus.completed = JobStatus.completed →
        (applyUpdate (newJob "J9" "U" none "mixing_only" none "in.wav" 0)
          JobStatus.completed (some "out.wav") none 7).error_message = none) ∧
      (∀ em, (none : Option String) = some em →
        (applyUpdate (newJob "J9" "U" none "mixing_only" none "in.wav" 0)
          JobStatus.completed (some "out.wav") none 7).error_message = some em)) :=
  ⟨(update_job_not_found_and_fields dbPatch "missing" JobStatus.failed none none 7).1
      (by decide),
    (update_job_not_found_and_fields dbPatch "J9" JobStatus.completed
        (some "out.wav") none 7).2
      (newJob "J9" "U" none "mixing_only" none "in.wav" 0) (by decide)⟩

/-- C10 (counterexample): with `WORKER_AUTH_TOKEN` set to the empty string
and no `Authorization` header, the claim predicts 401 (the variable is set
and the header differs from `Bearer <token>`), but the code accepts the
request because Python `if not token` treats an empty token as unset. -/
theorem worker_auth_counterexample :
    require_worker_auth (some "") none = true ∧
    (some "" : Option String).isSome = true ∧
    (none : Option String) ≠ some ("Bearer " ++ "") ∧
    ¬(require_worker_auth (some "") none = false ↔
        ((some "" : Option String).isSome = true ∧
          (none : Option String) ≠ some ("Bearer " ++ ""))) := by
  refine ⟨rfl, rfl, by decide, ?_⟩
  intro hiff
  have := hiff.mpr ⟨rfl, by decide⟩
  cases this

/-- C10 (amended): `_require_worker_auth` rejects with 401 exactly when a
non-empty token is configured and the `Authorization` header differs from
`Bearer <token>`; with no token — or an empty-string token — every request
is accepted. -/
theorem worker_auth_rejects_iff (token auth : Option String) :
    require_worker_auth token auth = false ↔
      ∃ t, token = some t ∧ t ≠ "" ∧ auth ≠ some ("Bearer " ++ t) := by
  cases token with
  | none => simp [require_worker_auth]
  | some t =>
    by_cases ht : t = ""
    · simp [require_worker_auth, ht]
    · simp [require_worker_auth, ht]

/-- Witness for `worker_auth_rejects_iff` at a configured non-empty token
and a matching header. -/
theorem worker_auth_rejects_iff_witness :
    require_worker_auth (some "tok") (some "Bearer tok") = false ↔
      ∃ t, (some "tok" : Option String) = some t ∧ t ≠ "" ∧
        (some "Bearer tok" : Option String) ≠ some ("Bearer " ++ t) :=
  worker_auth_rejects_iff (some "tok") (some "Bearer tok")

/-- `pyRound` lands on the floor or the ceiling of its argument. -/
lemma pyRound_bounds (q : ℚ) : ⌊q⌋ ≤ pyRound q ∧ pyRound q ≤ ⌊q⌋ + 1 := by
  unfold pyRound
  split_ifs <;> omega

/-- `pyRound` is monotone. -/
lemma pyRound_mono {q1 q2 : ℚ} (h : q1 ≤ q2) : pyRound q1 ≤ pyRound q2 := by
  by_cases hf : ⌊q1⌋ = ⌊q2⌋
  · have hfc : ((⌊q1⌋ : ℤ) : ℚ) = ((⌊q2⌋ : ℤ) : ℚ) := by exact_mod_cast hf
    by_cases h1 : q1 - (⌊q1⌋ : ℚ) < 1 / 2
    · have e1 : pyRound q1 = ⌊q1⌋ := by unfold pyRound; rw [if_pos h1]
      rw [e1, hf]
      exact (pyRound_bounds q2).1
    · have h2 : ¬(q2 - (⌊q2⌋ : ℚ) < 1 / 2) := by
        push_neg at h1 ⊢
        calc (1 : ℚ) / 2 ≤ q1 - (⌊q1⌋ : ℚ) := h1
        _ ≤ q2 - (⌊q2⌋ : ℚ) := by rw [← hfc]; linarith
      by_cases h3 : 1 / 2 < q2 - (⌊q2⌋ : ℚ)
      · have e2 : pyRound q2 = ⌊q2⌋ + 1 := by
          unfold pyRound
          rw [if_neg h2, if_pos h3]
        rw [e2, ← hf]
        exact (pyRound_bounds q1).2
      · push_neg at h1 h3
        have e2 : q2 - (⌊q2⌋ : ℚ) = 1 / 2 := le_antisymm h3 (not_lt.mp h2)
        have e1 : q1 - (⌊q1⌋ : ℚ) = 1 / 2 := by
          have hub : q1 - (⌊q1⌋ : ℚ) ≤ 1 / 2 := by rw [← e2, ← hfc] at *; linarith
          exact le_antisymm hub h1
        have E1 : pyRound q1 = if ⌊q1⌋ % 2 = 0 then ⌊q1⌋ else ⌊q1⌋ + 1 := by
          unfold pyRound
          rw [if_neg (by rw [e1]; exact lt_irrefl _),
            if_neg (by rw [e1]; exact lt_irrefl _)]
        have E2 : pyRound q2 = if ⌊q2⌋ % 2 = 0 then ⌊q2⌋ else ⌊q2⌋ + 1 := by
          unfold pyRound
          rw [if_neg (by rw [e2]; exact lt_irrefl _),
            if_neg (by rw [e2]; exact lt_irrefl _)]
        rw [E1, E2, hf]
  · have hlt : ⌊q1⌋ < ⌊q2⌋ := lt_of_le_of_ne (Int.floor_mono h) hf
    have hb1 := (pyRound_bounds q1).2
    have hb2 := (pyRound_bounds q2).1
    omega

/-- `pyRound` is within a half of its argument. -/
lemma pyRound_nearest (q : ℚ) : |((pyRound q : ℤ) : ℚ) - q| ≤ 1 / 2 := by
  have hfl : ((⌊q⌋ : ℤ) : ℚ) ≤ q := Int.floor_le q
  have hfu : q < ((⌊q⌋ : ℤ) : ℚ) + 1 := Int.lt_floor_add_one q
  unfold pyRound
  split_ifs with h1 h2 h3 <;>
    · rw [abs_le]
      constructor <;> push_cast <;> linarith

/-- `compute_progress` is monotone in the completed-step count. -/
lemma compute_progress_mono {c1 c2 t : ℤ} (h : c1 ≤ c2) :
    compute_progress c1 t ≤ compute_progress c2 t := by
  unfold compute_progress
  split_ifs with ht
  · exact le_refl 0
  · push_neg at ht
    apply pyRound_mono
    have htq : (0 : ℚ) < (t : ℚ) := by exact_mod_cast ht
    have hcl : ((max 0 (min c1 t) : ℤ) : ℚ) ≤ ((max 0 (min c2 t) : ℤ) : ℚ) := by
      have hint : max 0 (min c1 t) ≤ max 0 (min c2 t) :=
        max_le_max (le_refl 0) (min_le_min h (le_refl t))
      exact_mod_cast hint
    have hdiv : ((max 0 (min c1 t) : ℤ) : ℚ) / (t : ℚ) ≤
        ((max 0 (min c2 t) : ℤ) : ℚ) / (t : ℚ) :=
      (div_le_div_iff_of_pos_right htq).mpr hcl
    exact mul_le_mul_of_nonneg_right hdiv (by norm_num)

/-- C6 (counterexample): `update_progress` does not enforce monotonicity —
reporting step 2 of 2 and then step 1 of 2 drops the persisted progress
from 100 back to 50, so "non-decreasing for every sequence of updates"
fails. -/
theorem progress_monotonicity_counterexample :
    (update_progress rowFix "stage two" 2 2 "t1").progress = 100 ∧
    (update_progress (update_progress rowFix "stage two" 2 2 "t1")
        "stage one" 1 2 "t2").progress = 50 ∧
    ¬((update_progress rowFix "stage two" 2 2 "t1").progress ≤
        (update_progress (update_progress rowFix "stage two" 2 2 "t1")
          "stage one" 1 2 "t2").progress) := by
  refine ⟨?_, ?_, ?_⟩ <;> norm_num [update_progress, compute_progress, pyRound]

/-- C6 (amended): the persisted progress is non-decreasing across
`update_progress` calls whose (1-based) step indices are non-decreasing
against the same total — the code computes the percentage from the step
index alone, without clamping against the previously stored value — and
`mark_job_failed` leaves the numeric progress exactly as it was. -/
theorem progress_monotone_and_failure_preserves (row1 row2 : SupabaseJobRow)
    (n1 n2 : String) (c1 c2 t : ℤ) (now1 now2 : String) (hc : c1 ≤ c2) :
    (update_progress row1 n1 c1 t now1).progress ≤
      (update_progress row2 n2 c2 t now2).progress ∧
    ∀ (row : SupabaseJobRow) (sn em nw : String),
      (mark_job_failed row sn em nw).progress = row.progress := by
  constructor
  · simpa [update_progress] using compute_progress_mono hc
  · intro row sn em nw
    rfl

/-- Witness for `progress_monotone_and_failure_preserves` at steps 1 ≤ 2
of 2. -/
theorem progress_monotone_and_failure_preserves_witness :
    (1 : ℤ) ≤ 2 ∧
    ((update_progress rowFix "one" 1 2 "t1").progress ≤
        (update_progress rowFix "two" 2 2 "t2").progress ∧
      ∀ (row : SupabaseJobRow) (sn em nw : String),
        (mark_job_failed row sn em nw).progress = row.progress) :=
  ⟨by norm_num,
    progress_monotone_and_failure_preserves rowFix rowFix "one" "two" 1 2 2
      "t1" "t2" (by norm_num)⟩

/-- C7: for a positive total, `_compute_progress` first clamps the
completed count into `[0, total]` and returns Python
`round(completed / total * 100)` — the integer within one half of the
exact ratio — and `mark_job_complete` always persists exactly 100. -/
theorem compute_progress_formula (c t : ℤ) (h : 0 < t) :
    compute_progress c t =
      pyRound (((max 0 (min c t) : ℤ) : ℚ) * 100 / (t : ℚ)) ∧
    |((compute_progress c t : ℤ) : ℚ) -
        ((max 0 (min c t) : ℤ) : ℚ) * 100 / (t : ℚ)| ≤ 1 / 2 ∧
    0 ≤ max 0 (min c t) ∧ max 0 (min c t) ≤ t ∧
    ∀ (row : SupabaseJobRow) (fs : Option String) (nw : String),
      (mark_job_complete row fs nw).progress = 100 := by
  have hts : ¬(t ≤ 0) := not_le.mpr h
  have harg : ((max 0 (min c t) : ℤ) : ℚ) / (t : ℚ) * 100 =
      ((max 0 (min c t) : ℤ) : ℚ) * 100 / (t : ℚ) := by ring
  have hmain : compute_progress c t =
      pyRound (((max 0 (min c t) : ℤ) : ℚ) * 100 / (t : ℚ)) := by
    unfold compute_progress
    rw [if_neg hts, harg]
  refine ⟨hmain, ?_, le_max_left 0 _, max_le h.le (min_le_right c t),
    fun row fs nw => rfl⟩
  rw [hmain]
  exact pyRound_nearest _

/-- Witness for `compute_progress_formula` at 1 completed stage of 8: the
exact ratio is 12.5 and Python rounds to even, giving 12. -/
theorem compute_progress_formula_witness :
    (0 : ℤ) < 8 ∧
    (compute_progress 1 8 =
        pyRound (((max 0 (min 1 8) : ℤ) : ℚ) * 100 / ((8 : ℤ) : ℚ)) ∧
      |((compute_progress 1 8 : ℤ) : ℚ) -
          ((max 0 (min 1 8) : ℤ) : ℚ) * 100 / ((8 : ℤ) : ℚ)| ≤ 1 / 2 ∧
      (0 : ℤ) ≤ max 0 (min 1 8) ∧ max 0 (min 1 8) ≤ (8 : ℤ) ∧
      ∀ (row : SupabaseJobRow) (fs : Option String) (nw : String),
        (mark_job_complete row fs nw).progress = 100) ∧
    compute_progress 1 8 = 12 :=
  ⟨by norm_num, compute_progress_formula 1 8 (by norm_num),
    by norm_num [compute_progress, pyRound]⟩

/-- The `failed` patch `_patch_job` builds from a non-empty error message:
the message is kept, truncated to 3900 characters. -/
lemma patchPayload_failed (e : String) (hne : e ≠ "") :
    patchPayload "failed" none (some e) =
      ⟨"failed", none, some (truncate3900 e)⟩ := by
  simp [patchPayload, hne]

/-- One unfolding of the attempt loop when the current attempt raises. -/
lemma runAttempts_succ_error (step : Nat → Except String Unit)
    (attempt f : Nat) (le0 : Option String) (e : String)
    (hs : step attempt = Except.error e) :
    runAttempts step attempt (f + 1) le0 =
      ((runAttempts step (attempt + 1) f (some e)).1,
        backoff attempt :: (runAttempts step (attempt + 1) f (some e)).2.1,
        (runAttempts step (attempt + 1) f (some e)).2.2 + 1) := by
  simp only [runAttempts, hs]

/-- Trace of the attempt loop when every attempt raises: all the fuel is
consumed, the surviving `last_error` is the final attempt's message, and a
backoff sleep follows every failed attempt — the last one included. -/
lemma runAttempts_all_fail (msg : Nat → String)
    (step : Nat → Except String Unit)
    (hstep : ∀ i, step i = Except.error (msg i)) :
    ∀ (fuel attempt : Nat) (le0 : Option String), 1 ≤ fuel →
      runAttempts step attempt fuel le0 =
        (some (msg (attempt + fuel - 1)),
          (List.range fuel).map (fun i => backoff (attempt + i)), fuel) := by
  intro fuel
  induction fuel with
  | zero => intro attempt le0 h; exact absurd h (by omega)
  | succ f ih =>
    intro attempt le0 _
    cases f with
    | zero =>
      simp [runAttempts, hstep attempt, List.range_succ]
    | succ f2 =>
      have hrec := ih (attempt + 1) (some (msg attempt)) (by omega)
      rw [runAttempts_succ_error step attempt (f2 + 1) le0 (msg attempt)
        (hstep attempt), hrec]
      refine Prod.ext ?_ (Prod.ext ?_ rfl)
      · simp only [Option.some.injEq]
        congr 1
        omega
      · simp only
        conv_rhs => rw [List.range_succ_eq_map, List.map_cons, List.map_map]
        rw [Nat.add_zero]
        congr 1
        refine List.map_congr_left ?_
        intro i _
        simp only [Function.comp]
        congr 1
        omega

/-- C3 (counterexample): with a render collaborator failing all three
attempts with messages `e1`, `e2`, `e3` and `MAX_RETRIES = 3`, the worker
sleeps three times — 5 s, 10 s and 15 s — not twice: the
`min(5.0 * attempt, 15.0)` sleep sits inside the `except` handler and so
also runs after the final attempt, before the terminal `failed` patch
carrying `e3`. -/
theorem worker_sleeps_after_final_attempt :
    (handleClaimedJob (fun i => Except.error ("e" ++ toString i)) 3).1 = 3 ∧
    (handleClaimedJob (fun i => Except.error ("e" ++ toString i)) 3).2.1 =
      [5, 10, 15] ∧
    ((handleClaimedJob (fun i => Except.error ("e" ++ toString i)) 3).2.1).length
      ≠ 3 - 1 ∧
    (handleClaimedJob (fun i => Except.error ("e" ++ toString i)) 3).2.2 =
      some ⟨"failed", none, some "e3"⟩ := by
  refine ⟨by decide, by decide, by decide, by decide⟩

/-- C3 (amended): with a render collaborator failing every attempt and
`MAX_RETRIES = m ≥ 1`, the worker performs exactly `m` attempts, sleeps
`min(5 * attempt, 15)` after each failed attempt — including the final
one — and then issues exactly one terminal `failed` patch carrying the
final attempt's message truncated to 3900 characters. -/
theorem worker_all_attempts_fail (msg : Nat → String) (m : Nat) (hm : 1 ≤ m)
    (hne : msg m ≠ "") :
    (handleClaimedJob (fun i => Except.error (msg i)) m).1 = m ∧
    (handleClaimedJob (fun i => Except.error (msg i)) m).2.1 =
      (List.range m).map (fun i => backoff (i + 1)) ∧
    (handleClaimedJob (fun i => Except.error (msg i)) m).2.2 =
      some ⟨"failed", none, some (truncate3900 (msg m))⟩ ∧
    (truncate3900 (msg m)).length ≤ 3900 := by
  have hall := runAttempts_all_fail msg (fun i => Except.error (msg i))
    (fun _ => rfl) m 1 none hm
  have hidx : 1 + m - 1 = m := by omega
  rw [hidx] at hall
  refine ⟨?_, ?_, ?_, ?_⟩
  · simp only [handleClaimedJob, hall]
  · simp only [handleClaimedJob, hall]
    refine List.map_congr_left ?_
    intro i _
    rw [Nat.add_comm]
  · simp only [handleClaimedJob, hall]
    rw [patchPayload_failed (msg m) hne]
  · have hlen : (truncate3900 (msg m)).length = ((msg m).data.take 3900).length := rfl
    rw [hlen, List.length_take]
    exact min_le_left _ _

/-- Witness for `worker_all_attempts_fail` at messages `toString i` and
two attempts. -/
theorem worker_all_attempts_fail_witness :
    (1 ≤ 2 ∧ toString 2 ≠ "") ∧
    ((handleClaimedJob (fun i => Except.error (toString i)) 2).1 = 2 ∧
      (handleClaimedJob (fun i => Except.error (toString i)) 2).2.1 =
        (List.range 2).map (fun i => backoff (i + 1)) ∧
      (handleClaimedJob (fun i => Except.error (toString i)) 2).2.2 =
        some ⟨"failed", none, some (truncate3900 (toString 2))⟩ ∧
      (truncate3900 (toString 2)).length ≤ 3900) :=
  ⟨⟨by decide, by decide⟩,
    worker_all_attempts_fail (fun i => toString i) 2 (by decide) (by decide)⟩

/-- C2 (counterexample): with 100 MB free against a 500 MB minimum and
`MAX_RETRIES = 3`, the job does not fail immediately: the capacity error
raised by `_ensure_tmp_capacity` is caught by the retry loop like any
other attempt failure, so the worker performs 3 attempts (not 1) with
backoff sleeps 5 s, 10 s, 15 s before the terminal `failed` patch carrying
the capacity message. -/
theorem capacity_failure_not_failfast :
    (handleClaimedJob
        (processClaimedJob 104857600 524288000 (fun _ => Except.ok ())) 3).1 = 3 ∧
    (handleClaimedJob
        (processClaimedJob 104857600 524288000 (fun _ => Except.ok ())) 3).1 ≠ 1 ∧
    (handleClaimedJob
        (processClaimedJob 104857600 524288000 (fun _ => Except.ok ())) 3).2.1 =
      [5, 10, 15] ∧
    (handleClaimedJob
        (processClaimedJob 104857600 524288000 (fun _ => Except.ok ())) 3).2.2 =
      some ⟨"failed", none,
        some (truncate3900 (capacityError 104857600 524288000))⟩ := by
  refine ⟨by decide, by decide, by decide, by decide⟩

/-- C2 (amended): when free scratch space is below the configured minimum,
the capacity check raises before any render work — the trace is identical
for any two render collaborators, so zero render attempts are consumed —
but the worker loop retries the capacity failure like any other error:
it performs all `m` attempts and then issues one terminal `failed` patch
carrying the capacity-error message. -/
theorem capacity_failure_retried (free minBytes m : Nat)
    (render1 render2 : Nat → Except String Unit) (hcap : free < minBytes)
    (hm : 1 ≤ m) :
    handleClaimedJob (processClaimedJob free minBytes render1) m =
      handleClaimedJob (processClaimedJob free minBytes render2) m ∧
    (handleClaimedJob (processClaimedJob free minBytes render1) m).1 = m ∧
    (handleClaimedJob (processClaimedJob free minBytes render1) m).2.2 =
      some (patchPayload "failed" none (some (capacityError free minBytes))) := by
  have hstep : ∀ (r : Nat → Except String Unit) i,
      processClaimedJob free minBytes r i =
        Except.error (capacityError free minBytes) := by
    intro r i
    unfold processClaimedJob
    rw [if_pos hcap]
  have h1 := runAttempts_all_fail (fun _ => capacityError free minBytes)
    (processClaimedJob free minBytes render1) (hstep render1) m 1 none hm
  have h2 := runAttempts_all_fail (fun _ => capacityError free minBytes)
    (processClaimedJob free minBytes render2) (hstep render2) m 1 none hm
  refine ⟨?_, ?_, ?_⟩
  · simp only [handleClaimedJob, h1, h2]
  · simp only [handleClaimedJob, h1]
  · simp only [handleClaimedJob, h1]

/-- Witness for `capacity_failure_retried`: 100 bytes free against a
500-byte minimum, three retries, against both an always-succeeding and an
always-failing render collaborator. -/
theorem capacity_failure_retried_witness :
    (100 < 500 ∧ 1 ≤ 3) ∧
    (handleClaimedJob (processClaimedJob 100 500 (fun _ => Except.ok ())) 3 =
        handleClaimedJob
          (processClaimedJob 100 500 (fun _ => Except.error "render boom")) 3 ∧
      (handleClaimedJob (processClaimedJob 100 500 (fun _ => Except.ok ())) 3).1 = 3 ∧
      (handleClaimedJob (processClaimedJob 100 500 (fun _ => Except.ok ())) 3).2.2 =
        some (patchPayload "failed" none (some (capacityError 100 500)))) :=
  ⟨⟨by decide, by decide⟩,
    capacity_failure_retried 100 500 3 (fun _ => Except.ok ())
      (fun _ => Except.error "render boom") (by decide) (by decide)⟩

/-- C8: for an authorized query about an active job, the status endpoint
answers with `queue_size` equal to the number of active jobs sharing the
flow type, and a defined 1-based `queue_position` between 1 and that size,
namely the job's index in the `created_at`-sorted active same-flow list
(which is a sorted permutation of that list); when the queue query faults,
both values come back absent and the request still succeeds. -/
theorem queue_position_estimator (presign : String → Nat → String)
    (db : List ProcessingJob) (job_id user_id : String) (job : ProcessingJob)
    (hfind : get_job db job_id = some job)
    (huser : job.user_id = user_id)
    (hactive : isActive job = true) :
    (sortByCreated (db.filter (fun k => k.flow_type == job.flow_type && isActive k))).Perm
        (db.filter (fun k => k.flow_type == job.flow_type && isActive k)) ∧
    List.Sorted createdLE
      (sortByCreated (db.filter (fun k => k.flow_type == job.flow_type && isActive k))) ∧
    (∃ r : StatusResponse,
        get_job_status presign db true job_id user_id = Except.ok r ∧
        r.status = job.status ∧
        r.error_message = job.error_message ∧
        r.queue_feature_type = job.flow_type ∧
        r.queue_size =
          some (db.filter (fun k => k.flow_type == job.flow_type && isActive k)).length ∧
        (∃ p, r.queue_position = some p ∧
          p = (queueIds db job.flow_type).indexOf job.id + 1 ∧
          1 ≤ p ∧
          p ≤ (db.filter (fun k => k.flow_type == job.flow_type && isActive k)).length)) ∧
    (∃ r2 : StatusResponse,
        get_job_status presign db false job_id user_id = Except.ok r2 ∧
        r2.queue_position = none ∧ r2.queue_size = none) := by
  have hmem : job ∈ db := List.mem_of_find?_eq_some hfind
  have hperm := List.perm_insertionSort createdLE
    (db.filter (fun k => k.flow_type == job.flow_type && isActive k))
  have hsorted := List.sorted_insertionSort createdLE
    (db.filter (fun k => k.flow_type == job.flow_type && isActive k))
  have hLmem : job ∈ db.filter (fun k => k.flow_type == job.flow_type && isActive k) :=
    List.mem_filter.mpr ⟨hmem, by simp [hactive]⟩
  have hsmem : job ∈ sortByCreated
      (db.filter (fun k => k.flow_type == job.flow_type && isActive k)) := by
    rw [sortByCreated]
    exact hperm.mem_iff.mpr hLmem
  have hid : job.id ∈ queueIds db job.flow_type := by
    rw [queueIds]
    exact List.mem_map_of_mem (fun j => j.id) hsmem
  have hlen : (queueIds db job.flow_type).length =
      (db.filter (fun k => k.flow_type == job.flow_type && isActive k)).length := by
    rw [queueIds, List.length_map, sortByCreated]
    exact hperm.length_eq
  have hne : queueIds db job.flow_type ≠ [] := List.ne_nil_of_mem hid
  have hnotempty : ¬((queueIds db job.flow_type).isEmpty = true) := by
    intro h
    exact hne (List.isEmpty_iff.mp h)
  have hcont : (queueIds db job.flow_type).contains job.id = true := by
    rw [List.contains]
    exact List.elem_iff.mpr hid
  have huserif : ¬(job.user_id ≠ user_id) := not_ne_iff.mpr huser
  have hlt : (queueIds db job.flow_type).indexOf job.id <
      (queueIds db job.flow_type).length := List.indexOf_lt_length.mpr hid
  have hok : get_job_status presign db true job_id user_id =
      Except.ok
        { status := job.status
          output_download_url := downloadUrl presign job
          error_message := job.error_message
          queue_feature_type := job.flow_type
          queue_position := some ((queueIds db job.flow_type).indexOf job.id + 1)
          queue_size := some (queueIds db job.flow_type).length } := by
    simp [get_job_status, hfind, huserif, hcont, hnotempty, hid]
  have hok2 : get_job_status presign db false job_id user_id =
      Except.ok
        { status := job.status
          output_download_url := downloadUrl presign job
          error_message := job.error_message
          queue_feature_type := job.flow_type
          queue_position := none
          queue_size := none } := by
    simp [get_job_status, hfind, huserif]
  refine ⟨by rw [sortByCreated]; exact hperm, by rw [sortByCreated]; exact hsorted, ?_, ?_⟩
  · exact ⟨_, hok, rfl, rfl, rfl, congrArg some hlen,
      ⟨(queueIds db job.flow_type).indexOf job.id + 1, rfl, rfl, by omega, by omega⟩⟩
  · exact ⟨_, hok2, rfl, rfl⟩

/-- Witness for `queue_position_estimator`: three active same-flow jobs
created in order `QA`, `QB`, `QC`; querying `QB` yields position 2 of 3,
and with a faulting queue query both values are absent while the request
still succeeds. -/
theorem queue_position_estimator_witness :
    (get_job dbQueue "QB" = some jobQB ∧ jobQB.user_id = "U" ∧
      isActive jobQB = true) ∧
    ((sortByCreated
        (dbQueue.filter (fun k => k.flow_type == jobQB.flow_type && isActive k))).Perm
        (dbQueue.filter (fun k => k.flow_type == jobQB.flow_type && isActive k)) ∧
      List.Sorted createdLE
        (sortByCreated
          (dbQueue.filter (fun k => k.flow_type == jobQB.flow_type && isActive k))) ∧
      (∃ r : StatusResponse,
          get_job_status presignFix dbQueue true "QB" "U" = Except.ok r ∧
          r.status = jobQB.status ∧
          r.error_message = jobQB.error_message ∧
          r.queue_feature_type = jobQB.flow_type ∧
          r.queue_size =
            some (dbQueue.filter
              (fun k => k.flow_type == jobQB.flow_type && isActive k)).length ∧
          (∃ p, r.queue_position = some p ∧
            p = (queueIds dbQueue jobQB.flow_type).indexOf jobQB.id + 1 ∧
            1 ≤ p ∧
            p ≤ (dbQueue.filter
              (fun k => k.flow_type == jobQB.flow_type && isActive k)).length)) ∧
      (∃ r2 : StatusResponse,
          get_job_status presignFix dbQueue false "QB" "U" = Except.ok r2 ∧
          r2.queue_position = none ∧ r2.queue_size = none)) ∧
    get_job_status presignFix dbQueue true "QB" "U" =
      Except.ok ⟨JobStatus.pending, none, none, "mixing_only", some 2, some 3⟩ :=
  ⟨⟨by decide, by decide, by decide⟩,
    queue_position_estimator presignFix dbQueue "QB" "U" jobQB (by decide)
      (by decide) (by decide),
    by decide⟩

end MixSmvrt
